import Mathlib

/-!
Verification of the chats application (models.py, serializers.py, views.py).

The embedding models the persistent store as lists of rows (users, conversations,
messages) plus the ORM behaviours the views rely on:

* `Conversation.updated_at` carries `auto_now=True`, so every `conversation.save()`
  overwrites the field with the wall-clock time of that save (`saveConversation`).
* `Message.save` is overridden to call `self.conversation.save()` after the row
  is written, so every message save also rewrites the conversation timestamp.
* ManyToMany `add`/`remove`/`set` have set semantics and do not save the
  conversation row, so they never touch `updated_at`.
* Django model `Meta.ordering` (`['-updated_at']` for conversations,
  `['-timestamp']` for messages) is modelled by sorting the filtered rows.

Each view operation takes the acting (authenticated) user id, the decoded request
payload, and — where the code writes server-assigned timestamps or fresh primary
keys — the current wall-clock `t` and a fresh id, and returns the HTTP response
together with the updated store.
-/

namespace Chats

/-- One row of the `Message` table (models.py `Message`): sender and conversation
are foreign keys held as ids, `timestamp` is the `auto_now_add` creation time. -/
structure Message where
  id : Nat
  sender : Nat
  conversation : Nat
  content : String
  timestamp : Nat
  is_read : Bool
deriving DecidableEq, Repr

/-- One row of the `Conversation` table with its ManyToMany participant set
(models.py `Conversation`): `updated_at` is the `auto_now` last-activity time. -/
structure Conversation where
  id : Nat
  participants : List Nat
  created_at : Nat
  updated_at : Nat
deriving DecidableEq, Repr

/-- The persistent store: user ids that exist, conversation rows, message rows. -/
structure DB where
  users : List Nat
  conversations : List Conversation
  messages : List Message
deriving DecidableEq, Repr

/-- Decoded payload of `POST /messages/` as `MessageSerializer` reads it:
`conversation` (required model field), `content`, optional write-only
`sender_id`, and `is_read`, which the serializer leaves writable. -/
structure MessagePayload where
  conversation : Option Nat
  content : String
  sender_id : Option Nat
  is_read : Option Bool
deriving DecidableEq, Repr

/-- An HTTP response: status code plus the message/error string of the body. -/
structure HttpResponse where
  status : Nat
  body : String
deriving DecidableEq, Repr

/-- ManyToMany `add`: set semantics, re-adding an existing member is a no-op. -/
def m2mAdd (l : List Nat) (u : Nat) : List Nat :=
  if u ∈ l then l else l ++ [u]

/-- ManyToMany `remove`: drops every occurrence, removing a non-member is a no-op. -/
def m2mRemove (l : List Nat) (u : Nat) : List Nat :=
  l.filter (fun x => x ≠ u)

/-- Row effect of `conversation.save()` on the conversation with the given id:
with `auto_now=True` on `updated_at`, the save overwrites the field with the
current time `t`. -/
def touchRow (cid t : Nat) (c : Conversation) : Conversation :=
  if c.id = cid then { c with updated_at := t } else c

/-- `conversation.save()` applied to the stored table. -/
def saveConversation (db : DB) (cid : Nat) (t : Nat) : DB :=
  { db with conversations := db.conversations.map (touchRow cid t) }

/-- Row effect on a message of setting `is_read` to `b` on the message with id
`mid` and saving it. -/
def setIsRead (mid : Nat) (b : Bool) (m : Message) : Message :=
  if m.id = mid then { m with is_read := b } else m

/-- Row effect of the bulk
`filter(conversation=...).exclude(sender=request.user).update(is_read=True)`. -/
def bulkReadUpdate (cid u : Nat) (m : Message) : Message :=
  if m.conversation = cid ∧ m.sender ≠ u then { m with is_read := true } else m

/-- Row effect of the ManyToMany `add` on the conversation with id `pk`. -/
def addRow (pk uid : Nat) (c : Conversation) : Conversation :=
  if c.id = pk then { c with participants := m2mAdd c.participants uid } else c

/-- Row effect of the ManyToMany `remove` on the conversation with id `pk`. -/
def removeRow (pk uid : Nat) (c : Conversation) : Conversation :=
  if c.id = pk then { c with participants := m2mRemove c.participants uid } else c

/-- Test used by the views `Conversation.objects.get(id=cid, participants=user)`:
does a conversation row with this id and this user among its participants exist. -/
def participantOf (db : DB) (u cid : Nat) : Bool :=
  db.conversations.any (fun c => decide (c.id = cid ∧ u ∈ c.participants))

/-- `ConversationViewSet.get_queryset`: conversations where the requesting user
is a participant (views.py lines 48-52). -/
def conversationQueryset (db : DB) (u : Nat) : List Conversation :=
  db.conversations.filter (fun c => decide (u ∈ c.participants))

/-- Ordering relation of `Conversation.Meta.ordering = ['-updated_at']`:
most recently updated first. -/
def byRecency (a b : Conversation) : Prop :=
  b.updated_at ≤ a.updated_at

instance : DecidableRel byRecency :=
  fun a b => Nat.decLe b.updated_at a.updated_at

instance : IsTotal Conversation byRecency :=
  ⟨fun a b => Nat.le_total b.updated_at a.updated_at⟩

instance : IsTrans Conversation byRecency :=
  ⟨fun _ _ _ h1 h2 => Nat.le_trans h2 h1⟩

/-- The `list` action of `ConversationViewSet`: the participant-scoped queryset
in the model ordering (`-updated_at`). -/
def listConversations (db : DB) (u : Nat) : List Conversation :=
  (conversationQueryset db u).insertionSort byRecency

/-- Base filter of `MessageViewSet.get_queryset` (views.py lines 132-145):
messages whose conversation has the requesting user as participant. -/
def visibleMessages (db : DB) (u : Nat) : List Message :=
  db.messages.filter (fun m =>
    db.conversations.any (fun c => decide (c.id = m.conversation ∧ u ∈ c.participants)))

/-- Full `MessageViewSet.get_queryset`: the visible messages, optionally
narrowed to one conversation by the `conversation_id` query parameter. -/
def messageQueryset (db : DB) (u : Nat) (conversation_id : Option Nat) : List Message :=
  match conversation_id with
  | none => visibleMessages db u
  | some cid => (visibleMessages db u).filter (fun m => decide (m.conversation = cid))

/-- Ordering relation of `Message.Meta.ordering = ['-timestamp']`: newest first. -/
def byMessageRecency (a b : Message) : Prop :=
  b.timestamp ≤ a.timestamp

instance : DecidableRel byMessageRecency :=
  fun a b => Nat.decLe b.timestamp a.timestamp

instance : IsTotal Message byMessageRecency :=
  ⟨fun a b => Nat.le_total b.timestamp a.timestamp⟩

instance : IsTrans Message byMessageRecency :=
  ⟨fun _ _ _ h1 h2 => Nat.le_trans h2 h1⟩

/-- The `list` action of `MessageViewSet`: the scoped queryset in model ordering. -/
def listMessages (db : DB) (u : Nat) (conversation_id : Option Nat) : List Message :=
  (messageQueryset db u conversation_id).insertionSort byMessageRecency

/-- `ConversationViewSet.create` together with `ConversationSerializer.create`
(serializers.py lines 70-89): a fresh conversation row is created (`auto_now_add`
and `auto_now` both stamp `t`), the `participant_ids` are resolved with
`User.objects.filter(id__in=...)` — unknown ids drop out silently — and the
requesting user is always added. -/
def conversationCreate (db : DB) (u : Nat) (participant_ids : List Nat)
    (fresh t : Nat) : HttpResponse × DB :=
  let resolved := if participant_ids = [] then []
    else db.users.filter (fun x => decide (x ∈ participant_ids))
  let conv : Conversation :=
    { id := fresh, participants := m2mAdd resolved u, created_at := t, updated_at := t }
  ({ status := 201, body := "created" },
   { db with conversations := db.conversations ++ [conv] })

/-- `ConversationViewSet.add_participant` (views.py lines 73-96): `get_object`
resolves the pk inside the participant-scoped queryset (404 otherwise), then the
`user_id` payload field is required (400), the user must exist (404), and the
ManyToMany `add` runs — without saving the conversation row. -/
def addParticipant (db : DB) (u : Nat) (pk : Nat) (user_id : Option Nat) :
    HttpResponse × DB :=
  if (conversationQueryset db u).any (fun c => c.id == pk) then
    match user_id with
    | none => ({ status := 400, body := "user_id is required" }, db)
    | some uid =>
      if uid ∈ db.users then
        ({ status := 200, body := "User added to conversation" },
         { db with conversations := db.conversations.map (addRow pk uid) })
      else
        ({ status := 404, body := "User not found" }, db)
  else
    ({ status := 404, body := "Not found." }, db)

/-- `ConversationViewSet.remove_participant` (views.py lines 98-121): same gate
as `addParticipant`, then the ManyToMany `remove` runs. -/
def removeParticipant (db : DB) (u : Nat) (pk : Nat) (user_id : Option Nat) :
    HttpResponse × DB :=
  if (conversationQueryset db u).any (fun c => c.id == pk) then
    match user_id with
    | none => ({ status := 400, body := "user_id is required" }, db)
    | some uid =>
      if uid ∈ db.users then
        ({ status := 200, body := "User removed from conversation" },
         { db with conversations := db.conversations.map (removeRow pk uid) })
      else
        ({ status := 404, body := "User not found" }, db)
  else
    ({ status := 404, body := "Not found." }, db)

/-- `MessageViewSet.create` (views.py lines 147-173) with
`MessageSerializer.create` (serializers.py lines 31-42) and `Message.save`
(models.py lines 78-81). The view first checks — only when the payload carries a
`conversation` value — that a conversation with that id has the caller among its
participants (404 otherwise). Serializer validation then requires the
`conversation` field (400 when absent). `serializer.save(sender=request.user)`
merges `sender` into the validated data, but `MessageSerializer.create`
overwrites it with `User.objects.get(id=sender_id)` whenever `sender_id` was in
the payload (an unknown `sender_id` raises `User.DoesNotExist`, an unhandled 500).
The new row gets `timestamp := t` (`auto_now_add`), `is_read` from the payload
defaulting to `False`, and `Message.save` then saves the conversation row, whose
`auto_now` field becomes `t`. -/
def messageCreate (db : DB) (u : Nat) (p : MessagePayload) (fresh t : Nat) :
    HttpResponse × DB :=
  match p.conversation with
  | none => ({ status := 400, body := "This field is required." }, db)
  | some cid =>
    if participantOf db u cid then
      match p.sender_id with
      | some sid =>
        if sid ∈ db.users then
          let msg : Message :=
            ⟨fresh, sid, cid, p.content, t, p.is_read.getD false⟩
          ({ status := 201, body := "created" },
           saveConversation { db with messages := db.messages ++ [msg] } cid t)
        else
          ({ status := 500, body := "User matching query does not exist." }, db)
      | none =>
        let msg : Message :=
          ⟨fresh, u, cid, p.content, t, p.is_read.getD false⟩
        ({ status := 201, body := "created" },
         saveConversation { db with messages := db.messages ++ [msg] } cid t)
    else
      ({ status := 404, body := "Conversation not found or you are not a participant" }, db)

/-- `MessageViewSet.mark_as_read` (views.py lines 175-185): `get_object` resolves
the pk inside the participant-scoped message queryset (404 otherwise), sets
`is_read = True` and calls `message.save()`; the overridden `Message.save` then
saves the conversation row, whose `auto_now` `updated_at` becomes `t`. -/
def markAsRead (db : DB) (u : Nat) (pk : Nat) (t : Nat) : HttpResponse × DB :=
  match (messageQueryset db u none).find? (fun m => m.id == pk) with
  | none => ({ status := 404, body := "Not found." }, db)
  | some m =>
    let db1 : DB := { db with messages := db.messages.map (setIsRead m.id true) }
    ({ status := 200, body := "Message marked as read" },
     saveConversation db1 m.conversation t)

/-- `MessageViewSet.mark_conversation_as_read` (views.py lines 187-218):
`conversation_id` is required (400); the conversation must exist with the caller
as participant (404 otherwise); then a bulk
`Message.objects.filter(conversation=...).exclude(sender=request.user).update(is_read=True)`
runs — a SQL update that bypasses `Message.save`, so no conversation row is
touched — and the view returns a fixed success body carrying no count. -/
def markConversationAsRead (db : DB) (u : Nat) (conversation_id : Option Nat) :
    HttpResponse × DB :=
  match conversation_id with
  | none => ({ status := 400, body := "conversation_id is required" }, db)
  | some cid =>
    if participantOf db u cid then
      ({ status := 200, body := "All messages in conversation marked as read" },
       { db with messages := db.messages.map (bulkReadUpdate cid u) })
    else
      ({ status := 404, body := "Conversation not found or you are not a participant" }, db)

/-- Decoded payload of a PATCH to `/messages/{pk}/` as `MessageSerializer` reads
it with `partial=True`: every declared field outside `read_only_fields = ['id',
'timestamp']` is writable, so `conversation`, `content`, `sender_id` and
`is_read` may each be supplied; a field absent from the payload leaves the
corresponding column untouched. -/
structure MessagePatch where
  conversation : Option Nat
  content : Option String
  sender_id : Option Nat
  is_read : Option Bool
deriving DecidableEq, Repr

/-- Row effect of the default `ModelSerializer.update` on the message with id
`mid`: each supplied payload field is written onto the row (`sender_id` is the
foreign-key column behind `sender`); `id` and `timestamp` are read-only. -/
def patchRow (mid : Nat) (p : MessagePatch) (x : Message) : Message :=
  if x.id = mid then
    ⟨x.id, p.sender_id.getD x.sender, p.conversation.getD x.conversation,
     p.content.getD x.content, x.timestamp, p.is_read.getD x.is_read⟩
  else x

/-- Tail of the message update once field validation passed: the supplied fields
are written onto the row and the instance is saved; the overridden
`Message.save` then saves the row's — possibly newly assigned — conversation,
whose `auto_now` `updated_at` becomes `t`. A `sender_id` with no user row
violates the foreign-key constraint at save time: an unhandled error (500) and
the transaction rolls back. -/
def messageApplyPatch (db : DB) (m : Message) (p : MessagePatch) (t : Nat) :
    HttpResponse × DB :=
  let db1 : DB := { db with messages := db.messages.map (patchRow m.id p) }
  match p.sender_id with
  | some sid =>
    if sid ∈ db.users then
      ({ status := 200, body := "updated" },
       saveConversation db1 (p.conversation.getD m.conversation) t)
    else
      ({ status := 500, body := "FOREIGN KEY constraint failed" }, db)
  | none =>
    ({ status := 200, body := "updated" },
     saveConversation db1 (p.conversation.getD m.conversation) t)

/-- A PATCH to `/messages/{pk}/` handled by the stock `ModelViewSet.partial_update`
with `MessageSerializer`. `get_object` resolves the pk inside the
participant-scoped queryset (404 otherwise). Validation then checks a supplied
`conversation` id against the unscoped `Conversation` table — any existing
conversation passes, whether or not the caller participates in it — answering
400 for an unknown id, after which the update of `messageApplyPatch` runs. -/
def messagePartialUpdate (db : DB) (u : Nat) (pk : Nat) (p : MessagePatch) (t : Nat) :
    HttpResponse × DB :=
  match (messageQueryset db u none).find? (fun m => m.id == pk) with
  | none => ({ status := 404, body := "Not found." }, db)
  | some m =>
    match p.conversation with
    | some cid =>
      if db.conversations.any (fun c => c.id == cid) then
        messageApplyPatch db m p t
      else
        ({ status := 400, body := "Invalid pk - object does not exist." }, db)
    | none => messageApplyPatch db m p t

/-- Modelled from the spec (refinement comparison for the read-count claim): the
number of rows the bulk update of `MarkConversationRead` actually flips, i.e. the
messages of the conversation from another sender that are still unread. -/
def specFlipCount (db : DB) (u cid : Nat) : Nat :=
  (db.messages.filter (fun m =>
    decide (m.conversation = cid ∧ m.sender ≠ u ∧ m.is_read = false))).length

/-- Concrete store exercising the theorems: users 1, 2 and 3; conversation 1
between users 1 and 2 (last activity 5), conversation 2 with user 2 alone (last
activity 7); message 1 from user 2 in conversation 1 still unread, message 2
from user 1 in conversation 1 already read. User 3 participates nowhere. -/
def sampleDB : DB :=
  ⟨[1, 2, 3],
   [⟨1, [1, 2], 0, 5⟩, ⟨2, [2], 0, 7⟩],
   [⟨1, 2, 1, "hi", 4, false⟩, ⟨2, 1, 1, "yo", 3, true⟩]⟩

/-- Membership in a ManyToMany `add`: the old members plus the added one. -/
theorem mem_m2mAdd (l : List Nat) (u x : Nat) : x ∈ m2mAdd l u ↔ x ∈ l ∨ x = u := by
  unfold m2mAdd
  by_cases h : u ∈ l
  · simp only [if_pos h]
    exact ⟨Or.inl, fun hx => hx.elim id (fun e => e ▸ h)⟩
  · simp [if_neg h]

/-- The view-level participant test succeeds exactly when some conversation row
with the id carries the user. -/
theorem participantOf_iff (db : DB) (u cid : Nat) :
    participantOf db u cid = true ↔
      ∃ c ∈ db.conversations, c.id = cid ∧ u ∈ c.participants := by
  simp [participantOf]

/-- The view-level participant test fails exactly when every conversation row
with the id misses the user. -/
theorem participantOf_false_iff (db : DB) (u cid : Nat) :
    participantOf db u cid = false ↔
      ∀ c ∈ db.conversations, c.id = cid → u ∉ c.participants := by
  simp [participantOf]

/-- Reading a mapped list below its length applies the function to the entry. -/
theorem getD_map_of_lt {α : Type} (f : α → α) (l : List α) (i : Nat) (d : α)
    (h : i < l.length) : (l.map f).getD i d = f (l.getD i d) := by
  induction l generalizing i with
  | nil => exact absurd h (by simp)
  | cons a l ih =>
    cases i with
    | zero => rfl
    | succ n =>
      simp only [List.map_cons, List.getD_cons_succ]
      exact ih n (Nat.lt_of_succ_lt_succ h)

/-- Characterization of the visible-message filter: stored messages whose
conversation has the user among its participants. -/
theorem mem_visibleMessages (db : DB) (u : Nat) (m : Message) :
    m ∈ visibleMessages db u ↔
      m ∈ db.messages ∧ ∃ c ∈ db.conversations, c.id = m.conversation ∧ u ∈ c.participants := by
  rw [visibleMessages, List.mem_filter]
  simp

/-- Field-by-field effect of the bulk mark-read row update. -/
theorem bulkReadUpdate_proj (cid u : Nat) (m : Message) :
    (bulkReadUpdate cid u m).sender = m.sender ∧
    (bulkReadUpdate cid u m).conversation = m.conversation ∧
    (bulkReadUpdate cid u m).content = m.content ∧
    (bulkReadUpdate cid u m).is_read =
      (if m.conversation = cid ∧ m.sender ≠ u then true else m.is_read) := by
  unfold bulkReadUpdate
  by_cases h : m.conversation = cid ∧ m.sender ≠ u
  · rw [if_pos h, if_pos h]
    exact ⟨rfl, rfl, rfl, rfl⟩
  · rw [if_neg h, if_neg h]
    exact ⟨rfl, rfl, rfl, rfl⟩

/-- The bulk mark-read row update is idempotent. -/
theorem bulkReadUpdate_idem (cid u : Nat) (m : Message) :
    bulkReadUpdate cid u (bulkReadUpdate cid u m) = bulkReadUpdate cid u m := by
  unfold bulkReadUpdate
  by_cases h : m.conversation = cid ∧ m.sender ≠ u
  · simp [h]
  · simp [h]

/-- C8: the conversation-listing operation returns exactly the conversations in
which the requesting user is a participant, ordered by last-activity
(`updated_at`) descending. -/
theorem listConversations_exact_and_sorted (db : DB) (u : Nat) :
    (∀ c, c ∈ listConversations db u ↔ c ∈ db.conversations ∧ u ∈ c.participants) ∧
    (listConversations db u).Sorted byRecency := by
  refine ⟨fun c => ?_, List.sorted_insertionSort byRecency _⟩
  rw [listConversations, List.mem_insertionSort, conversationQueryset, List.mem_filter]
  simp

/-- C8 witness: the theorem applied to the sample store and user 1. -/
theorem listConversations_exact_and_sorted_witness :
    (∀ c, c ∈ listConversations sampleDB 1 ↔
        c ∈ sampleDB.conversations ∧ 1 ∈ c.participants) ∧
    (listConversations sampleDB 1).Sorted byRecency :=
  listConversations_exact_and_sorted sampleDB 1

/-- C7: creating a conversation always succeeds and the new row's participant
set is exactly the existing users whose ids were requested, together with the
creator; unknown ids drop out silently and listing the creator is redundant. -/
theorem conversationCreate_participants (db : DB) (u fresh t : Nat) (ids : List Nat) :
    (conversationCreate db u ids fresh t).1.status = 201 ∧
    ∃ c : Conversation,
      (conversationCreate db u ids fresh t).2.conversations = db.conversations ++ [c] ∧
      c.id = fresh ∧ c.created_at = t ∧ c.updated_at = t ∧
      ∀ x, x ∈ c.participants ↔ ((x ∈ db.users ∧ x ∈ ids) ∨ x = u) := by
  refine ⟨rfl, _, rfl, rfl, rfl, rfl, fun x => ?_⟩
  dsimp only
  rw [mem_m2mAdd]
  by_cases h : ids = []
  · subst h; simp
  · simp [if_neg h, List.mem_filter]

/-- C7 witness: the theorem applied at a concrete input; user 3 creates a
conversation naming users 2, 99 (unknown) and 3 (the creator). -/
theorem conversationCreate_participants_witness :
    (conversationCreate sampleDB 3 [2, 99, 3] 7 9).1.status = 201 ∧
    ∃ c : Conversation,
      (conversationCreate sampleDB 3 [2, 99, 3] 7 9).2.conversations =
        sampleDB.conversations ++ [c] ∧
      c.id = 7 ∧ c.created_at = 9 ∧ c.updated_at = 9 ∧
      ∀ x, x ∈ c.participants ↔ ((x ∈ sampleDB.users ∧ x ∈ [2, 99, 3]) ∨ x = 3) :=
  conversationCreate_participants sampleDB 3 7 9 [2, 99, 3]

/-- C9 counterexample: user 2 is already a participant of conversation 1 of the
sample store; user 1 adding then removing user 2 ends with participant set [1],
not the original [1, 2] — the pair of operations does not restore the set. -/
theorem addRemove_not_inverse_on_existing :
    sampleDB.conversations.map Conversation.participants = [[1, 2], [2]] ∧
    (removeParticipant (addParticipant sampleDB 1 1 (some 2)).2 1 1 (some 2)).2.conversations.map
      Conversation.participants = [[1], [2]] := by decide

/-- C9 amended: when the added user is not already a participant of the target
conversation, AddParticipant followed by RemoveParticipant of that user restores
the store — participant set included — exactly. -/
theorem addRemove_roundtrip (db : DB) (u cid v : Nat)
    (hv : v ∈ db.users)
    (hacc : ∃ c ∈ db.conversations, c.id = cid ∧ u ∈ c.participants)
    (hnot : ∀ c ∈ db.conversations, c.id = cid → v ∉ c.participants) :
    (removeParticipant (addParticipant db u cid (some v)).2 u cid (some v)).2 = db := by
  obtain ⟨c0, hc0, hid0, hu0⟩ := hacc
  have hgate : (conversationQueryset db u).any (fun c => c.id == cid) = true := by
    rw [List.any_eq_true]
    exact ⟨c0, by rw [conversationQueryset, List.mem_filter]; exact ⟨hc0, by simpa using hu0⟩,
      by simpa using hid0⟩
  rw [addParticipant, if_pos hgate, if_pos hv]
  have hgate2 : (conversationQueryset
      { db with conversations := db.conversations.map (addRow cid v) } u).any
      (fun c => c.id == cid) = true := by
    rw [List.any_eq_true]
    refine ⟨addRow cid v c0, ?_, ?_⟩
    · rw [conversationQueryset, List.mem_filter]
      constructor
      · exact List.mem_map_of_mem (addRow cid v) hc0
      · have : u ∈ (addRow cid v c0).participants := by
          rw [addRow]
          by_cases h : c0.id = cid
          · simp only [if_pos h]
            exact (mem_m2mAdd _ _ _).mpr (Or.inl hu0)
          · simp only [if_neg h]; exact hu0
        simpa using this
    · have : (addRow cid v c0).id = cid := by
        rw [addRow]; by_cases h : c0.id = cid <;> simp [h, hid0]
      simpa using this
  rw [removeParticipant, if_pos hgate2]
  simp only [if_pos hv]
  have hmaps : (db.conversations.map (addRow cid v)).map (removeRow cid v)
      = db.conversations := by
    rw [List.map_map]
    have : ∀ c ∈ db.conversations, (removeRow cid v ∘ addRow cid v) c = id c := by
      intro c hc
      simp only [Function.comp, removeRow, addRow, id]
      by_cases h : c.id = cid
      · have hvc : v ∉ c.participants := hnot c hc h
        simp only [if_pos h]
        have : m2mRemove (m2mAdd c.participants v) v = c.participants := by
          rw [m2mAdd, if_neg hvc, m2mRemove, List.filter_append]
          have h1 : c.participants.filter (fun x => x ≠ v) = c.participants := by
            rw [List.filter_eq_self]
            intro a ha
            have hav : a ≠ v := fun e => hvc (e ▸ ha)
            simpa using hav
          have h2 : [v].filter (fun x => x ≠ v) = ([] : List Nat) := by simp
          rw [h1, h2, List.append_nil]
        simp [this]
      · simp only [if_neg h]
    rw [List.map_congr_left this, List.map_id]
  rw [hmaps]

/-- C9 amended, witness: user 1 adds then removes user 3 (not yet a participant)
on conversation 1 of the sample store; the store is restored exactly. -/
theorem addRemove_roundtrip_witness :
    (removeParticipant (addParticipant sampleDB 1 1 (some 3)).2 1 1 (some 3)).2 = sampleDB :=
  addRemove_roundtrip sampleDB 1 1 3 (by decide)
    ⟨⟨1, [1, 2], 0, 5⟩, by decide, by decide, by decide⟩ (by decide)

/-- C1 counterexample: user 1 participates in conversation 1 but not in
conversation 2, whose last-activity is 7. PATCHing message 2 — visible to user
1 — with conversation = 2 passes validation (the serializer's conversation
field is writable and checked against the unscoped table), succeeds with 200,
reassigns the message into conversation 2, and `Message.save` then saves that
foreign conversation, rewriting its last-activity to 9: an operation did let a
user mutate a conversation outside their participant set. -/
theorem patch_reassigns_into_foreign_conversation :
    sampleDB.conversations.map Conversation.participants = [[1, 2], [2]] ∧
    sampleDB.messages.map Message.conversation = [1, 1] ∧
    sampleDB.conversations.map Conversation.updated_at = [5, 7] ∧
    (messagePartialUpdate sampleDB 1 2 ⟨some 2, none, none, none⟩ 9).1.status = 200 ∧
    (messagePartialUpdate sampleDB 1 2 ⟨some 2, none, none, none⟩ 9).2.messages.map
      Message.conversation = [1, 2] ∧
    (messagePartialUpdate sampleDB 1 2 ⟨some 2, none, none, none⟩ 9).2.conversations.map
      Conversation.updated_at = [5, 9] := by decide

/-- C1 amended: participant scoping of targets. The listing operations return
only conversations containing the caller and only messages of such
conversations, and each mutating operation aimed at a conversation (or a
message of a conversation) outside the caller's participant set — including a
PATCH with any payload — answers 404 and leaves the store unchanged. This
target scoping is all the code enforces: the writable `conversation` field of
the update payload can still carry an in-scope message into a foreign
conversation (see the counterexample on the update endpoint). -/
theorem participantScoping (db : DB) (u pk cid fresh t : Nat)
    (p : MessagePayload) (p2 : MessagePatch) (uid : Option Nat)
    (hcid : ∀ c ∈ db.conversations, c.id = cid → u ∉ c.participants)
    (hpk : ∀ m ∈ db.messages, m.id = pk → m.conversation = cid)
    (hp : p.conversation = some cid) :
    (∀ c ∈ listConversations db u, u ∈ c.participants) ∧
    (∀ q, ∀ m ∈ listMessages db u q,
      ∃ c ∈ db.conversations, c.id = m.conversation ∧ u ∈ c.participants) ∧
    ((markAsRead db u pk t).1.status = 404 ∧ (markAsRead db u pk t).2 = db) ∧
    ((markConversationAsRead db u (some cid)).1.status = 404 ∧
      (markConversationAsRead db u (some cid)).2 = db) ∧
    ((messageCreate db u p fresh t).1.status = 404 ∧
      (messageCreate db u p fresh t).2 = db) ∧
    ((addParticipant db u cid uid).1.status = 404 ∧ (addParticipant db u cid uid).2 = db) ∧
    ((removeParticipant db u cid uid).1.status = 404 ∧
      (removeParticipant db u cid uid).2 = db) ∧
    ((messagePartialUpdate db u pk p2 t).1.status = 404 ∧
      (messagePartialUpdate db u pk p2 t).2 = db) := by
  have hpf : participantOf db u cid = false := (participantOf_false_iff db u cid).mpr hcid
  have hgate : (conversationQueryset db u).any (fun c => c.id == cid) = false := by
    rw [List.any_eq_false]
    intro c hcq
    rw [conversationQueryset, List.mem_filter] at hcq
    simp only [beq_iff_eq]
    intro he
    exact hcid c hcq.1 he (by simpa using hcq.2)
  have hfind : (messageQueryset db u none).find? (fun m => m.id == pk) = none := by
    rw [List.find?_eq_none]
    intro x hx
    obtain ⟨hxm, c, hcm, hcidx, hup⟩ := (mem_visibleMessages db u x).mp hx
    simp only [beq_iff_eq]
    intro he
    exact hcid c hcm (by rw [hcidx, hpk x hxm he]) hup
  refine ⟨?_, ?_, ?_, ?_, ?_, ?_, ?_, ?_⟩
  · intro c hc
    rw [listConversations, List.mem_insertionSort, conversationQueryset,
      List.mem_filter] at hc
    simpa using hc.2
  · intro q m hm
    rw [listMessages, List.mem_insertionSort] at hm
    cases q with
    | none => exact ((mem_visibleMessages db u m).mp hm).2
    | some cid2 =>
      have hmv : m ∈ visibleMessages db u := (List.mem_filter.mp hm).1
      exact ((mem_visibleMessages db u m).mp hmv).2
  · exact ⟨by simp [markAsRead, hfind], by simp [markAsRead, hfind]⟩
  · exact ⟨by simp [markConversationAsRead, hpf], by simp [markConversationAsRead, hpf]⟩
  · exact ⟨by simp [messageCreate, hp, hpf], by simp [messageCreate, hp, hpf]⟩
  · exact ⟨by simp [addParticipant, hgate], by simp [addParticipant, hgate]⟩
  · exact ⟨by simp [removeParticipant, hgate], by simp [removeParticipant, hgate]⟩
  · exact ⟨by simp [messagePartialUpdate, hfind], by simp [messagePartialUpdate, hfind]⟩

/-- C1 witness: user 3 of the sample store participates nowhere; every operation
aimed at conversation 1 or its message 1 is rejected with 404 and the listings
stay inside the participant set. -/
theorem participantScoping_witness :
    (∀ c ∈ listConversations sampleDB 3, 3 ∈ c.participants) ∧
    (∀ q, ∀ m ∈ listMessages sampleDB 3 q,
      ∃ c ∈ sampleDB.conversations, c.id = m.conversation ∧ 3 ∈ c.participants) ∧
    ((markAsRead sampleDB 3 1 9).1.status = 404 ∧ (markAsRead sampleDB 3 1 9).2 = sampleDB) ∧
    ((markConversationAsRead sampleDB 3 (some 1)).1.status = 404 ∧
      (markConversationAsRead sampleDB 3 (some 1)).2 = sampleDB) ∧
    ((messageCreate sampleDB 3 ⟨some 1, "hi", none, none⟩ 10 9).1.status = 404 ∧
      (messageCreate sampleDB 3 ⟨some 1, "hi", none, none⟩ 10 9).2 = sampleDB) ∧
    ((addParticipant sampleDB 3 1 (some 2)).1.status = 404 ∧
      (addParticipant sampleDB 3 1 (some 2)).2 = sampleDB) ∧
    ((removeParticipant sampleDB 3 1 (some 2)).1.status = 404 ∧
      (removeParticipant sampleDB 3 1 (some 2)).2 = sampleDB) ∧
    ((messagePartialUpdate sampleDB 3 1 ⟨some 2, none, none, some false⟩ 9).1.status = 404 ∧
      (messagePartialUpdate sampleDB 3 1 ⟨some 2, none, none, some false⟩ 9).2 = sampleDB) :=
  participantScoping sampleDB 3 1 1 10 9 ⟨some 1, "hi", none, none⟩
    ⟨some 2, none, none, some false⟩ (some 2) (by decide) (by decide) rfl

/-- C2 counterexample: in the sample store user 1 marking conversation 1 read
would flip one row on the first call and zero rows on an immediately repeated
call, yet both calls return the identical response — the operation returns a
fixed success message, not the count of rows flipped. -/
theorem markConversationAsRead_returns_no_count :
    specFlipCount sampleDB 1 1 = 1 ∧
    specFlipCount (markConversationAsRead sampleDB 1 (some 1)).2 1 1 = 0 ∧
    (markConversationAsRead (markConversationAsRead sampleDB 1 (some 1)).2 1 (some 1)).1 =
      (markConversationAsRead sampleDB 1 (some 1)).1 := by decide

/-- C2 amended: for a participant, the bulk mark-read sets is_read to true on
exactly the conversation's messages whose sender differs from the acting user,
changes no other message field and no other row, is idempotent, and returns a
fixed success response that carries no count of flipped rows. -/
theorem markConversationAsRead_spec (db : DB) (u cid : Nat) (d : Message)
    (hacc : ∃ c ∈ db.conversations, c.id = cid ∧ u ∈ c.participants) :
    (markConversationAsRead db u (some cid)).1 =
      ⟨200, "All messages in conversation marked as read"⟩ ∧
    (markConversationAsRead db u (some cid)).2.conversations = db.conversations ∧
    (markConversationAsRead db u (some cid)).2.users = db.users ∧
    (markConversationAsRead db u (some cid)).2.messages.length = db.messages.length ∧
    (∀ i, i < db.messages.length →
      ((markConversationAsRead db u (some cid)).2.messages.getD i d).sender =
        (db.messages.getD i d).sender ∧
      ((markConversationAsRead db u (some cid)).2.messages.getD i d).conversation =
        (db.messages.getD i d).conversation ∧
      ((markConversationAsRead db u (some cid)).2.messages.getD i d).content =
        (db.messages.getD i d).content ∧
      ((markConversationAsRead db u (some cid)).2.messages.getD i d).is_read =
        (if (db.messages.getD i d).conversation = cid ∧ (db.messages.getD i d).sender ≠ u
          then true else (db.messages.getD i d).is_read)) ∧
    (markConversationAsRead (markConversationAsRead db u (some cid)).2 u (some cid)).2 =
      (markConversationAsRead db u (some cid)).2 := by
  have hpt : participantOf db u cid = true := (participantOf_iff db u cid).mpr hacc
  have hred : markConversationAsRead db u (some cid) =
      (⟨200, "All messages in conversation marked as read"⟩,
       { db with messages := db.messages.map (bulkReadUpdate cid u) }) := by
    simp [markConversationAsRead, hpt]
  rw [hred]
  refine ⟨rfl, rfl, rfl, by simp, fun i hi => ?_, ?_⟩
  · rw [getD_map_of_lt (bulkReadUpdate cid u) db.messages i d hi]
    exact bulkReadUpdate_proj cid u _
  · dsimp only
    have hpt2 : participantOf
        { db with messages := db.messages.map (bulkReadUpdate cid u) } u cid = true := hpt
    have hidem : (db.messages.map (bulkReadUpdate cid u)).map (bulkReadUpdate cid u) =
        db.messages.map (bulkReadUpdate cid u) := by
      rw [List.map_map]
      exact List.map_congr_left (fun m _ => bulkReadUpdate_idem cid u m)
    simp [markConversationAsRead, hpt2, hidem]

/-- C2 amended, witness: user 1 on conversation 1 of the sample store. -/
theorem markConversationAsRead_spec_witness :
    (markConversationAsRead sampleDB 1 (some 1)).1 =
      ⟨200, "All messages in conversation marked as read"⟩ ∧
    (markConversationAsRead sampleDB 1 (some 1)).2.conversations = sampleDB.conversations ∧
    (markConversationAsRead sampleDB 1 (some 1)).2.users = sampleDB.users ∧
    (markConversationAsRead sampleDB 1 (some 1)).2.messages.length =
      sampleDB.messages.length ∧
    (∀ i, i < sampleDB.messages.length →
      ((markConversationAsRead sampleDB 1 (some 1)).2.messages.getD i ⟨0, 0, 0, "", 0, false⟩).sender =
        (sampleDB.messages.getD i ⟨0, 0, 0, "", 0, false⟩).sender ∧
      ((markConversationAsRead sampleDB 1 (some 1)).2.messages.getD i ⟨0, 0, 0, "", 0, false⟩).conversation =
        (sampleDB.messages.getD i ⟨0, 0, 0, "", 0, false⟩).conversation ∧
      ((markConversationAsRead sampleDB 1 (some 1)).2.messages.getD i ⟨0, 0, 0, "", 0, false⟩).content =
        (sampleDB.messages.getD i ⟨0, 0, 0, "", 0, false⟩).content ∧
      ((markConversationAsRead sampleDB 1 (some 1)).2.messages.getD i ⟨0, 0, 0, "", 0, false⟩).is_read =
        (if (sampleDB.messages.getD i ⟨0, 0, 0, "", 0, false⟩).conversation = 1 ∧
            (sampleDB.messages.getD i ⟨0, 0, 0, "", 0, false⟩).sender ≠ 1
          then true else (sampleDB.messages.getD i ⟨0, 0, 0, "", 0, false⟩).is_read)) ∧
    (markConversationAsRead (markConversationAsRead sampleDB 1 (some 1)).2 1 (some 1)).2 =
      (markConversationAsRead sampleDB 1 (some 1)).2 :=
  markConversationAsRead_spec sampleDB 1 1 ⟨0, 0, 0, "", 0, false⟩
    ⟨⟨1, [1, 2], 0, 5⟩, by decide, by decide, by decide⟩

/-- C3 counterexample: conversation 1 of the sample store exists and user 3 is
not a participant, yet the append operation answers 404 NotFound — byte for byte
the same response as for the nonexistent conversation 99 — and the list
operation answers the empty sequence with no failure; no Forbidden signal
distinct from NotFound exists. -/
theorem nonParticipant_404_not_forbidden :
    (messageCreate sampleDB 3 ⟨some 1, "hi", none, none⟩ 10 9).1 =
      ⟨404, "Conversation not found or you are not a participant"⟩ ∧
    (messageCreate sampleDB 3 ⟨some 99, "hi", none, none⟩ 10 9).1 =
      ⟨404, "Conversation not found or you are not a participant"⟩ ∧
    sampleDB.conversations.any (fun c => c.id == 1) = true ∧
    sampleDB.conversations.all (fun c => c.id != 99) = true ∧
    listMessages sampleDB 3 (some 1) = [] := by decide

/-- C3 amended: a non-participant invoking append receives NotFound (404) with
the body shared with the nonexistent-conversation case and the store unchanged,
and a non-participant invoking list-messages receives the empty sequence;
neither operation produces a Forbidden failure distinct from NotFound. -/
theorem nonParticipant_append_list (db : DB) (u cid fresh t : Nat) (p : MessagePayload)
    (hp : p.conversation = some cid)
    (h : ∀ c ∈ db.conversations, c.id = cid → u ∉ c.participants) :
    (messageCreate db u p fresh t).1 =
      ⟨404, "Conversation not found or you are not a participant"⟩ ∧
    (messageCreate db u p fresh t).2 = db ∧
    listMessages db u (some cid) = [] := by
  have hpf : participantOf db u cid = false := (participantOf_false_iff db u cid).mpr h
  refine ⟨by simp [messageCreate, hp, hpf], by simp [messageCreate, hp, hpf], ?_⟩
  rw [listMessages]
  have hq : messageQueryset db u (some cid) = [] := by
    simp only [messageQueryset]
    rw [List.filter_eq_nil_iff]
    intro m hm
    obtain ⟨hmm, c, hcm, hcc, hup⟩ := (mem_visibleMessages db u m).mp hm
    simp only [decide_eq_true_eq]
    intro he
    exact h c hcm (hcc.trans he) hup
  rw [hq]
  rfl

/-- C3 amended, witness: user 3 against conversation 1 of the sample store. -/
theorem nonParticipant_append_list_witness :
    (messageCreate sampleDB 3 ⟨some 1, "hi", none, none⟩ 10 9).1 =
      ⟨404, "Conversation not found or you are not a participant"⟩ ∧
    (messageCreate sampleDB 3 ⟨some 1, "hi", none, none⟩ 10 9).2 = sampleDB ∧
    listMessages sampleDB 3 (some 1) = [] :=
  nonParticipant_append_list sampleDB 3 1 10 9 ⟨some 1, "hi", none, none⟩ rfl (by decide)

/-- Setting is_read to true on one message never lowers another read flag. -/
theorem setIsRead_true_preserves (mid : Nat) (m : Message) (h : m.is_read = true) :
    (setIsRead mid true m).is_read = true := by
  unfold setIsRead
  by_cases he : m.id = mid
  · simp [he]
  · simp [he, h]

/-- C4: evaluation at the failing input. Conversation 1 of the sample store has
last-activity 5; user 1 marking message 1 read at time 9 succeeds and rewrites
the conversation's last-activity to 9. MarkMessageRead does not mutate only the
is_read flag: mark_as_read saves the message, and the overridden Message.save
saves the conversation on every save, not only on append, so the auto_now
last-activity field is rewritten by the read layer. -/
theorem markAsRead_bumps_conversation :
    (markAsRead sampleDB 1 1 9).1.status = 200 ∧
    sampleDB.conversations.map Conversation.updated_at = [5, 7] ∧
    (markAsRead sampleDB 1 1 9).2.conversations.map Conversation.updated_at = [9, 7] ∧
    (markAsRead sampleDB 1 1 9).2.messages.map Message.is_read = [true, true] := by decide

/-- C5 counterexample: conversation 1 of the sample store has last-activity 5;
an append by participant 1 at time 3 — a timestamp below the current value — is
not a no-op: it succeeds and moves the last-activity timestamp backward to 3,
so the freshness update is not monotonic. -/
theorem touch_moves_backward :
    (messageCreate sampleDB 1 ⟨some 1, "x", none, none⟩ 10 3).1.status = 201 ∧
    sampleDB.conversations.map Conversation.updated_at = [5, 7] ∧
    (messageCreate sampleDB 1 ⟨some 1, "x", none, none⟩ 10 3).2.conversations.map
      Conversation.updated_at = [3, 7] := by decide

/-- C5 amended: a successful append overwrites the last-activity timestamp of
every conversation row with the target id to exactly the append time — an
unconditional auto_now last-writer-wins write with no monotonic guard and no
no-op for older timestamps — leaves rows with other ids untouched, and appends
the message stamped with the same time. -/
theorem append_overwrites_updated_at (db : DB) (u cid fresh t : Nat) (p : MessagePayload)
    (hp : p.conversation = some cid) (hs : p.sender_id = none)
    (hacc : ∃ c ∈ db.conversations, c.id = cid ∧ u ∈ c.participants) :
    (messageCreate db u p fresh t).1.status = 201 ∧
    (∀ c ∈ (messageCreate db u p fresh t).2.conversations, c.id = cid → c.updated_at = t) ∧
    (∀ c ∈ (messageCreate db u p fresh t).2.conversations, c.id ≠ cid →
      c ∈ db.conversations) ∧
    (∃ m, (messageCreate db u p fresh t).2.messages = db.messages ++ [m] ∧
      m.timestamp = t ∧ m.conversation = cid ∧ m.sender = u) := by
  have hpt : participantOf db u cid = true := (participantOf_iff db u cid).mpr hacc
  have hred : messageCreate db u p fresh t =
      (⟨201, "created"⟩, saveConversation
        { db with messages :=
            db.messages ++ [⟨fresh, u, cid, p.content, t, p.is_read.getD false⟩] } cid t) := by
    simp [messageCreate, hp, hs, hpt]
  rw [hred]
  refine ⟨rfl, ?_, ?_, ⟨_, rfl, rfl, rfl, rfl⟩⟩
  · intro c hc hcid2
    obtain ⟨c0, hc0, hce⟩ := List.mem_map.mp hc
    by_cases h : c0.id = cid
    · rw [touchRow, if_pos h] at hce
      rw [← hce]
    · rw [touchRow, if_neg h] at hce
      rw [← hce] at hcid2
      exact absurd hcid2 h
  · intro c hc hne
    obtain ⟨c0, hc0, hce⟩ := List.mem_map.mp hc
    by_cases h : c0.id = cid
    · rw [touchRow, if_pos h] at hce
      rw [← hce] at hne
      exact absurd h hne
    · rw [touchRow, if_neg h] at hce
      rw [← hce]
      exact hc0

/-- C5 amended, witness: the append of the counterexample input, showing the
timestamp is taken over verbatim. -/
theorem append_overwrites_updated_at_witness :
    (messageCreate sampleDB 1 ⟨some 1, "x", none, none⟩ 10 3).1.status = 201 ∧
    (∀ c ∈ (messageCreate sampleDB 1 ⟨some 1, "x", none, none⟩ 10 3).2.conversations,
      c.id = 1 → c.updated_at = 3) ∧
    (∀ c ∈ (messageCreate sampleDB 1 ⟨some 1, "x", none, none⟩ 10 3).2.conversations,
      c.id ≠ 1 → c ∈ sampleDB.conversations) ∧
    (∃ m, (messageCreate sampleDB 1 ⟨some 1, "x", none, none⟩ 10 3).2.messages =
      sampleDB.messages ++ [m] ∧ m.timestamp = 3 ∧ m.conversation = 1 ∧ m.sender = 1) :=
  append_overwrites_updated_at sampleDB 1 1 10 3 ⟨some 1, "x", none, none⟩ rfl rfl
    ⟨⟨1, [1, 2], 0, 5⟩, by decide, by decide, by decide⟩

/-- C6 counterexample: message 2 of the sample store is already read; its author
is user 1, and participant 2 PATCHes it with is_read=false through the stock
update endpoint — is_read is not among MessageSerializer.Meta.read_only_fields —
and the message returns to unread with a 200: the public interface does expose a
Read→Unread transition. -/
theorem patch_moves_read_to_unread :
    sampleDB.messages.map Message.is_read = [false, true] ∧
    (messagePartialUpdate sampleDB 2 2 ⟨none, none, none, some false⟩ 9).1.status = 200 ∧
    (messagePartialUpdate sampleDB 2 2 ⟨none, none, none, some false⟩ 9).2.messages.map
      Message.is_read = [false, false] := by decide

/-- C6 amended: the dedicated mark-read operations only move Unread→Read — they
never lower a read flag, so re-marking a read message is a no-op success on the
flags — while the generic message-update endpoint, whose serializer leaves
is_read writable, can move Read→Unread. -/
theorem mark_read_one_directional (db : DB) (u pk cid t i : Nat) (d : Message)
    (hi : i < db.messages.length)
    (hread : (db.messages.getD i d).is_read = true) :
    ((markAsRead db u pk t).2.messages.getD i d).is_read = true ∧
    ((markConversationAsRead db u (some cid)).2.messages.getD i d).is_read = true ∧
    (markAsRead db u pk t).2.messages.length = db.messages.length ∧
    (markConversationAsRead db u (some cid)).2.messages.length = db.messages.length := by
  have hm1 : (markAsRead db u pk t).2.messages = db.messages ∨
      ∃ mid, (markAsRead db u pk t).2.messages = db.messages.map (setIsRead mid true) := by
    cases hf : (messageQueryset db u none).find? (fun m => m.id == pk) with
    | none => rw [markAsRead, hf]; exact Or.inl rfl
    | some m => rw [markAsRead, hf]; exact Or.inr ⟨m.id, rfl⟩
  have hm2 : (markConversationAsRead db u (some cid)).2.messages = db.messages ∨
      (markConversationAsRead db u (some cid)).2.messages =
        db.messages.map (bulkReadUpdate cid u) := by
    cases hpt : participantOf db u cid with
    | false => left; simp [markConversationAsRead, hpt]
    | true => right; simp [markConversationAsRead, hpt]
  refine ⟨?_, ?_, ?_, ?_⟩
  · rcases hm1 with h | ⟨mid, h⟩
    · rw [h]; exact hread
    · rw [h, getD_map_of_lt _ _ _ _ hi]
      exact setIsRead_true_preserves mid _ hread
  · rcases hm2 with h | h
    · rw [h]; exact hread
    · rw [h, getD_map_of_lt _ _ _ _ hi]
      rw [(bulkReadUpdate_proj cid u _).2.2.2, hread, ite_self]
  · rcases hm1 with h | ⟨mid, h⟩ <;> simp [h]
  · rcases hm2 with h | h <;> simp [h]

/-- C6 amended, witness: message 2 of the sample store is read and stays read
under both mark-read operations run by user 1. -/
theorem mark_read_one_directional_witness :
    ((markAsRead sampleDB 1 1 9).2.messages.getD 1 ⟨0, 0, 0, "", 0, false⟩).is_read = true ∧
    ((markConversationAsRead sampleDB 1 (some 1)).2.messages.getD 1
      ⟨0, 0, 0, "", 0, false⟩).is_read = true ∧
    (markAsRead sampleDB 1 1 9).2.messages.length = sampleDB.messages.length ∧
    (markConversationAsRead sampleDB 1 (some 1)).2.messages.length =
      sampleDB.messages.length :=
  mark_read_one_directional sampleDB 1 1 1 9 1 ⟨0, 0, 0, "", 0, false⟩
    (by decide) (by decide)

/-- C10: the append operation honours a sender_id naming an existing user — the
created message's sender is that user, not the authenticated caller whom the
view passes to serializer.save — and the sender defaults to the caller only when
sender_id is absent from the payload. -/
theorem messageCreate_sender_override (db : DB) (u cid sid fresh t : Nat) (content : String)
    (hacc : ∃ c ∈ db.conversations, c.id = cid ∧ u ∈ c.participants)
    (hsid : sid ∈ db.users) :
    (messageCreate db u ⟨some cid, content, some sid, none⟩ fresh t).1.status = 201 ∧
    (messageCreate db u ⟨some cid, content, some sid, none⟩ fresh t).2.messages =
      db.messages ++ [⟨fresh, sid, cid, content, t, false⟩] ∧
    (messageCreate db u ⟨some cid, content, none, none⟩ fresh t).2.messages =
      db.messages ++ [⟨fresh, u, cid, content, t, false⟩] := by
  have hpt : participantOf db u cid = true := (participantOf_iff db u cid).mpr hacc
  refine ⟨?_, ?_, ?_⟩ <;> simp [messageCreate, hpt, hsid, saveConversation]

/-- C10 witness: user 1 appends to conversation 1 of the sample store naming
user 2 as sender_id; the stored sender is 2, and without sender_id it is 1. -/
theorem messageCreate_sender_override_witness :
    (messageCreate sampleDB 1 ⟨some 1, "hi", some 2, none⟩ 10 9).1.status = 201 ∧
    (messageCreate sampleDB 1 ⟨some 1, "hi", some 2, none⟩ 10 9).2.messages =
      sampleDB.messages ++ [⟨10, 2, 1, "hi", 9, false⟩] ∧
    (messageCreate sampleDB 1 ⟨some 1, "hi", none, none⟩ 10 9).2.messages =
      sampleDB.messages ++ [⟨10, 1, 1, "hi", 9, false⟩] :=
  messageCreate_sender_override sampleDB 1 1 2 10 9 "hi"
    ⟨⟨1, [1, 2], 0, 5⟩, by decide, by decide, by decide⟩ (by decide)

end Chats
